import Mathlib

/-!
Verification of the mesh sub-element editing engine of `FIXED-interface-mesh-`
(`src/store/sceneStore.ts` and the `EdgeLines` topology derivations of
`src/components/Scene.tsx`).

Modelling conventions:

* Scalar coordinates are exact rationals, represented as an unnormalised
  fraction `Q` (integer numerator, positive integer denominator).  All
  operations used by the store (`+`, `-`, `*`, `<`) are implemented by
  cross-multiplication, so every predicate in this file evaluates by kernel
  reduction.  The squared-distance comparison `distSq p q < eps * eps` is
  equivalent to the source's `p.distanceTo(q) < 0.0001`, because
  `distanceTo` is the square root of `distSq` and squaring is monotone on
  nonnegative reals.
* THREE.js object references are modelled as indices (`Nat` handles) into a
  `world : List Obj3D` heap; in-place geometry mutation becomes updating the
  heap at the handle.  `instanceof THREE.Mesh` becomes a lookup returning an
  `Obj3D.mesh`.
* `BufferAttribute.setXYZ` with an out-of-range index writes nothing (typed
  arrays ignore out-of-bounds stores); `List.set` has the same behaviour.
  Out-of-range reads yield NaN in JavaScript, which makes every distance
  comparison false; the theorems below only evaluate reads at in-range
  indices, and out-of-range reads are modelled by a default value.
* `THREE.CylinderGeometry` / `THREE.SphereGeometry` construction is an
  external collaborator; the positions it generates are abstracted as an
  arbitrary generator function passed to the resolution-change operations.
-/

/-- Exact rational scalar: unnormalised fraction with positive denominator. -/
structure Q where
  num : Int
  den : Int
  dpos : 0 < den

instance : DecidableEq Q := fun a b =>
  if h : a.num = b.num ∧ a.den = b.den then
    Decidable.isTrue (by cases a; cases b; simp only at h; simp [h.1, h.2])
  else
    Decidable.isFalse (by intro he; cases he; simp at h)

def Q.ofInt (n : Int) : Q := ⟨n, 1, Int.one_pos⟩

def Q.add (a b : Q) : Q :=
  ⟨a.num * b.den + b.num * a.den, a.den * b.den, mul_pos a.dpos b.dpos⟩

def Q.sub (a b : Q) : Q :=
  ⟨a.num * b.den - b.num * a.den, a.den * b.den, mul_pos a.dpos b.dpos⟩

def Q.mul (a b : Q) : Q :=
  ⟨a.num * b.num, a.den * b.den, mul_pos a.dpos b.dpos⟩

/-- `a < b` on exact rationals, by cross-multiplication (denominators are
positive). -/
def Q.ltB (a b : Q) : Bool := decide (a.num * b.den < b.num * a.den)

/-- A point of a position buffer (`THREE.Vector3` with exact coordinates). -/
structure Vec3 where
  x : Q
  y : Q
  z : Q
deriving DecidableEq

def Vec3.zero : Vec3 := ⟨Q.ofInt 0, Q.ofInt 0, Q.ofInt 0⟩

def Vec3.add (a b : Vec3) : Vec3 := ⟨a.x.add b.x, a.y.add b.y, a.z.add b.z⟩

def Vec3.sub (a b : Vec3) : Vec3 := ⟨a.x.sub b.x, a.y.sub b.y, a.z.sub b.z⟩

/-- Squared Euclidean distance (`distanceToSquared`). -/
def distSq (a b : Vec3) : Q :=
  (((a.x.sub b.x).mul (a.x.sub b.x)).add
    ((a.y.sub b.y).mul (a.y.sub b.y))).add
    ((a.z.sub b.z).mul (a.z.sub b.z))

/-- The coincidence tolerance `0.0001` of the source. -/
def eps : Q := ⟨1, 10000, by norm_num⟩

/-- `a.distanceTo(b) < 0.0001`, expressed on squares. -/
def nearB (a b : Vec3) : Bool := (distSq a b).ltB (eps.mul eps)

/-- Constructor parameters of a `THREE.CylinderGeometry`. -/
structure CylParams where
  radiusTop : Q
  radiusBottom : Q
  height : Q
  radialSegments : Nat
  heightSegments : Nat
  openEnded : Bool
  thetaStart : Q
  thetaLength : Q
deriving DecidableEq

/-- Constructor parameters of a `THREE.SphereGeometry`. -/
structure SphParams where
  radius : Q
  widthSegments : Nat
  heightSegments : Nat
  phiStart : Q
  phiLength : Q
  thetaStart : Q
  thetaLength : Q
deriving DecidableEq

/-- A geometry: its runtime class tag (what `instanceof` inspects) plus its
position buffer. -/
inductive Geometry where
  | cylinder (params : CylParams) (positions : List Vec3)
  | sphere (params : SphParams) (positions : List Vec3)
  | generic (positions : List Vec3)
deriving DecidableEq

def Geometry.positions : Geometry → List Vec3
  | .cylinder _ ps => ps
  | .sphere _ ps => ps
  | .generic ps => ps

def Geometry.withPositions : Geometry → List Vec3 → Geometry
  | .cylinder p _, ps => .cylinder p ps
  | .sphere p _, ps => .sphere p ps
  | .generic _, ps => .generic ps

/-- A `THREE.Object3D` in the heap: either a mesh owning a geometry, or some
other (non-mesh) object. -/
inductive Obj3D where
  | mesh (geometry : Geometry)
  | other
deriving DecidableEq

inductive TMode where
  | translate
  | rotate
  | scale
deriving DecidableEq

inductive EMode where
  | vertex
  | edge
  | face
  | normal
deriving DecidableEq

structure SelElems where
  vertices : List Nat
  edges : List Nat
  faces : List Nat
deriving DecidableEq

/-- The `draggedVertex` session record of the store. -/
structure DraggedVertex where
  indices : List Nat
  position : Vec3
  initialPosition : Vec3
deriving DecidableEq

/-- The `draggedEdge` session record of the store. -/
structure DraggedEdge where
  indices : List (Nat × Nat)
  positions : List Vec3
  initialPositions : List Vec3
  edgeIndices : List Nat
deriving DecidableEq

/-- One entry of the store's `objects` list. -/
structure SceneEntry where
  id : Nat
  object : Nat
  name : String
  visible : Bool
deriving DecidableEq

/-- The zustand store state, together with the heap of THREE objects the
store's references point into. -/
structure SceneState where
  world : List Obj3D
  objects : List SceneEntry
  selectedObject : Option Nat
  transformMode : Option TMode
  editMode : Option EMode
  selectedElements : SelElems
  draggedVertex : Option DraggedVertex
  draggedEdge : Option DraggedEdge
deriving DecidableEq

/-- `state.selectedObject instanceof THREE.Mesh`: resolve the selected
reference and require a mesh; returns the handle and its geometry. -/
def getMesh (s : SceneState) : Option (Nat × Geometry) :=
  match s.selectedObject with
  | none => none
  | some h =>
    match s.world.get? h with
    | some (Obj3D.mesh g) => some (h, g)
    | _ => none

/-- `setSelectedObject` (sceneStore.ts line 79). -/
def setSelectedObject (o : Option Nat) (s : SceneState) : SceneState :=
  { s with selectedObject := o }

/-- `removeObject` (sceneStore.ts lines 71-77): drop the entries whose id
matches, and clear the selection when the removed entry's object was the
selected one (`find(...)?.object === state.selectedObject`). -/
def removeObject (id : Nat) (s : SceneState) : SceneState :=
  { s with
    objects := s.objects.filter (fun o => decide (o.id ≠ id)),
    selectedObject :=
      match s.objects.find? (fun o => o.id == id) with
      | some o => if s.selectedObject = some o.object then none else s.selectedObject
      | none => s.selectedObject }

/-- The coincidence-group scan of `startVertexDrag` (sceneStore.ts lines
145-161): collect, in scan order, every index whose distance to the clicked
vertex's position is below the tolerance. -/
def overlappingIndices (buf : List Vec3) (index : Nat) : List Nat :=
  let selectedPos := buf.getD index Vec3.zero
  (List.range buf.length).filter (fun i => nearB (buf.getD i Vec3.zero) selectedPos)

/-- `startVertexDrag` (sceneStore.ts lines 139-174). -/
def startVertexDrag (index : Nat) (position : Vec3) (s : SceneState) : SceneState :=
  match getMesh s with
  | none => s
  | some (_, g) =>
    let group := overlappingIndices g.positions index
    { s with
      selectedElements := { s.selectedElements with vertices := group },
      draggedVertex := some ⟨group, position, position⟩ }

/-- `updateVertexDrag` (sceneStore.ts lines 176-201): guard on an open
session and a mesh target, then write the target point to every grouped
index and refresh the session's live position. -/
def updateVertexDrag (position : Vec3) (s : SceneState) : SceneState :=
  match s.draggedVertex, getMesh s with
  | some dv, some (h, g) =>
    let ps := dv.indices.foldl (fun acc i => acc.set i position) g.positions
    { s with
      world := s.world.set h (Obj3D.mesh (g.withPositions ps)),
      draggedVertex := some { dv with position := position } }
  | _, _ => s

/-- `endVertexDrag` (sceneStore.ts line 203). -/
def endVertexDrag (s : SceneState) : SceneState := { s with draggedVertex := none }

/-- The triangle-chunk start offsets of the `startEdgeDrag` scan
(`for (let i = 0; i < count; i += 3)`). -/
def triChunkStarts (count : Nat) : List Nat :=
  (List.range count).filter (fun i => i % 3 == 0)

/-- The sides visited by the `startEdgeDrag` scan, in scan order:
for each chunk start `i` and `j = 0, 1, 2`, the pair `(i+j, i+(j+1)%3)`. -/
def scanSides (count : Nat) : List (Nat × Nat) :=
  (triChunkStarts count).flatMap (fun i => [0, 1, 2].map (fun j => (i + j, i + (j + 1) % 3)))

/-- The match condition of `startEdgeDrag` (sceneStore.ts lines 232-234):
both side indices belong to the clicked pair, or the side's endpoint
positions coincide with the clicked endpoint positions in either order. -/
def matchesSide (vertexIndices : List Nat) (p0 p1 : Vec3) (buf : List Vec3)
    (side : Nat × Nat) : Bool :=
  let v1 := buf.getD side.1 Vec3.zero
  let v2 := buf.getD side.2 Vec3.zero
  (decide (side.1 ∈ vertexIndices) && decide (side.2 ∈ vertexIndices)) ||
    (nearB v1 p0 && nearB v2 p1) || (nearB v1 p1 && nearB v2 p0)

/-- `startEdgeDrag` (sceneStore.ts lines 205-254).  The accumulated
`edgeIndices` starts as `[edgeIndex]` and, after the k-th matching side is
pushed, appends `overlappingEdges.length - 1 = k`; so it equals
`edgeIndex :: [0, 1, ..., n-1]` for `n` matches. -/
def startEdgeDrag (vertexIndices : List Nat) (positions : List Vec3)
    (edgeIndex : Nat) (s : SceneState) : SceneState :=
  match getMesh s with
  | none => s
  | some (_, g) =>
    let buf := g.positions
    let p0 := positions.getD 0 Vec3.zero
    let p1 := positions.getD 1 Vec3.zero
    let matched := (scanSides buf.length).filter (matchesSide vertexIndices p0 p1 buf)
    let allPositions := matched.flatMap
      (fun side => [buf.getD side.1 Vec3.zero, buf.getD side.2 Vec3.zero])
    let edgeIndices := edgeIndex :: List.range matched.length
    { s with
      selectedElements := { s.selectedElements with edges := edgeIndices },
      draggedEdge := some ⟨matched, allPositions, positions, edgeIndices⟩ }

/-- The write loop of `updateEdgeDrag` (sceneStore.ts lines 264-270), with
`k` the running `forEach` index: set pair `(v1, v2)` to the session's
snapshot positions `positions[2k]`, `positions[2k+1]` translated by
`offset`. -/
def applyEdgeWrites (pairs : List (Nat × Nat)) (snaps : List Vec3) (offset : Vec3)
    (k : Nat) (ps : List Vec3) : List Vec3 :=
  match pairs with
  | [] => ps
  | (v1, v2) :: rest =>
    applyEdgeWrites rest snaps offset (k + 1)
      ((ps.set v1 ((snaps.getD (2 * k) Vec3.zero).add offset)).set v2
        ((snaps.getD (2 * k + 1) Vec3.zero).add offset))

/-- `updateEdgeDrag` (sceneStore.ts lines 256-276): guard on an open session
and a mesh target, recompute `offset = target - initialPositions[0]`, and
rigidly translate every participant pair from its snapshot. -/
def updateEdgeDrag (position : Vec3) (s : SceneState) : SceneState :=
  match s.draggedEdge, getMesh s with
  | some de, some (h, g) =>
    let offset := position.sub (de.initialPositions.getD 0 Vec3.zero)
    let ps := applyEdgeWrites de.indices de.positions offset 0 g.positions
    { s with world := s.world.set h (Obj3D.mesh (g.withPositions ps)) }
  | _, _ => s

/-- `endEdgeDrag` (sceneStore.ts line 278). -/
def endEdgeDrag (s : SceneState) : SceneState := { s with draggedEdge := none }

/-- `updateCylinderVertices` (sceneStore.ts lines 280-310): on a selected
cylinder mesh, rebuild the geometry with `vertexCount` radial segments (the
other constructor parameters are carried over) and clear all three selection
lists; otherwise return the state unchanged.  `genCyl` abstracts THREE's
vertex generation. -/
def updateCylinderVertices (genCyl : CylParams → List Vec3) (vertexCount : Nat)
    (s : SceneState) : SceneState :=
  match getMesh s with
  | some (h, Geometry.cylinder p _) =>
    let p2 := { p with radialSegments := vertexCount }
    { s with
      world := s.world.set h (Obj3D.mesh (Geometry.cylinder p2 (genCyl p2))),
      selectedElements := ⟨[], [], []⟩ }
  | _ => s

/-- Strict lexicographic comparison of UTF-16 code-unit sequences, as used
by the default comparator of JavaScript `Array.prototype.sort` (elements are
converted to strings and compared unit by unit). -/
def lexLt : List Char → List Char → Bool
  | [], [] => false
  | [], _ :: _ => true
  | _ :: _, [] => false
  | a :: as, b :: bs => if a < b then true else if b < a then false else lexLt as bs

/-- `String(n)` for a vertex index: its decimal digit characters. -/
def jsStr (n : Nat) : List Char := Nat.toDigits 10 n

/-- The per-triangle sides pushed by both `EdgeLines` derivations
(Scene.tsx lines 160-168 and 559-568): `(a,b), (b,c), (c,a)` per index
triple, in input order. -/
def triSides : List Nat → List (Nat × Nat)
  | a :: b :: c :: rest => (a, b) :: (b, c) :: (c, a) :: triSides rest
  | _ => []

/-- Canonicalisation of the first `EdgeLines` (Scene.tsx lines 171-173):
`edge.slice().sort().join(',')` sorts the two indices with the default
string comparator, so the pair is swapped exactly when the decimal string of
the second index precedes that of the first. -/
def canonSortJoin (e : Nat × Nat) : Nat × Nat :=
  if lexLt (jsStr e.2) (jsStr e.1) then (e.2, e.1) else e

/-- Canonicalisation of the second `EdgeLines` (Scene.tsx lines 564-566):
`(Math.min(a,b), Math.max(a,b))`. -/
def canonMinMax (e : Nat × Nat) : Nat × Nat := (min e.1 e.2, max e.1 e.2)

/-- JavaScript `Set` insertion: keep insertion order, drop repeats. -/
def insertUnique (l : List (Nat × Nat)) (k : Nat × Nat) : List (Nat × Nat) :=
  if k ∈ l then l else l ++ [k]

def dedupKeys (ks : List (Nat × Nat)) : List (Nat × Nat) :=
  ks.foldl insertUnique []

/-- The derived edge set of the first `EdgeLines` (Scene.tsx lines 160-174):
sides canonicalised by the default string sort, deduplicated by a `Set` of
`'a,b'` keys (the key determines the pair, so deduplicating pairs is the
same as deduplicating keys). -/
def uniqueEdgesSortJoin (tris : List Nat) : List (Nat × Nat) :=
  dedupKeys ((triSides tris).map canonSortJoin)

/-- The derived edge set of the second `EdgeLines` (Scene.tsx lines
559-569): sides canonicalised as min-max, deduplicated by a `Set` of
`'min-max'` keys. -/
def uniqueEdgesMinMax (tris : List Nat) : List (Nat × Nat) :=
  dedupKeys ((triSides tris).map canonMinMax)

/-- Shorthand for integer-coordinate points in concrete states. -/
def vI (a b c : Int) : Vec3 := ⟨Q.ofInt a, Q.ofInt b, Q.ofInt c⟩

/-- A state with no mesh under edit (selection cleared). -/
def stNoMesh : SceneState :=
  { world := [Obj3D.mesh (Geometry.generic [vI 1 1 1])],
    objects := [],
    selectedObject := none,
    transformMode := none,
    editMode := some EMode.vertex,
    selectedElements := ⟨[], [], []⟩,
    draggedVertex := some ⟨[0], vI 1 1 1, vI 1 1 1⟩,
    draggedEdge := some ⟨[(0, 0)], [vI 1 1 1, vI 1 1 1], [vI 1 1 1, vI 1 1 1], [0, 0]⟩ }

/-- Two meshes; mesh 0 is under edit with an open vertex-drag session on
index 0. -/
def stTwoMeshes : SceneState :=
  { world := [Obj3D.mesh (Geometry.generic [vI 0 0 0]),
              Obj3D.mesh (Geometry.generic [vI 1 1 1, vI 2 2 2])],
    objects := [],
    selectedObject := some 0,
    transformMode := none,
    editMode := some EMode.vertex,
    selectedElements := ⟨[0], [], []⟩,
    draggedVertex := some ⟨[0], vI 0 0 0, vI 0 0 0⟩,
    draggedEdge := none }

/-- A six-vertex triangle soup (two triangles, all positions distinct and
far apart), under edit with no open session. -/
def stSoup : SceneState :=
  { world := [Obj3D.mesh (Geometry.generic
      [vI 0 0 0, vI 1 0 0, vI 2 0 0, vI 3 0 0, vI 4 0 0, vI 5 0 0])],
    objects := [],
    selectedObject := some 0,
    transformMode := none,
    editMode := some EMode.edge,
    selectedElements := ⟨[], [], []⟩,
    draggedVertex := none,
    draggedEdge := none }

/-- A mesh with duplicate (coincident) vertices, under edit, no session. -/
def stDup : SceneState :=
  { world := [Obj3D.mesh (Geometry.generic [vI 0 0 0, vI 5 0 0, vI 0 0 0])],
    objects := [],
    selectedObject := some 0,
    transformMode := none,
    editMode := some EMode.vertex,
    selectedElements := ⟨[], [], []⟩,
    draggedVertex := none,
    draggedEdge := none }

/-- A state with an open edge-drag session on a one-pair group. -/
def stEdgeSession : SceneState :=
  { world := [Obj3D.mesh (Geometry.generic [vI 0 0 0, vI 1 0 0, vI 2 0 0])],
    objects := [],
    selectedObject := some 0,
    transformMode := none,
    editMode := some EMode.edge,
    selectedElements := ⟨[], [0, 0], []⟩,
    draggedVertex := none,
    draggedEdge := some ⟨[(0, 1)], [vI 0 0 0, vI 1 0 0], [vI 0 0 0, vI 1 0 0], [0, 0]⟩ }

/-- A selected cylinder mesh (no session). -/
def cylP : CylParams :=
  ⟨Q.ofInt 1, Q.ofInt 1, Q.ofInt 2, 8, 1, false, Q.ofInt 0, Q.ofInt 6⟩

def sphP : SphParams :=
  ⟨Q.ofInt 1, 8, 4, Q.ofInt 0, Q.ofInt 6, Q.ofInt 0, Q.ofInt 3⟩

def stCyl : SceneState :=
  { world := [Obj3D.mesh (Geometry.cylinder cylP [vI 0 0 0])],
    objects := [],
    selectedObject := some 0,
    transformMode := none,
    editMode := none,
    selectedElements := ⟨[1], [2], [3]⟩,
    draggedVertex := none,
    draggedEdge := none }

def stSph : SceneState :=
  { world := [Obj3D.mesh (Geometry.sphere sphP [vI 0 0 0])],
    objects := [],
    selectedObject := some 0,
    transformMode := none,
    editMode := none,
    selectedElements := ⟨[1], [2], [3]⟩,
    draggedVertex := none,
    draggedEdge := none }

/-- A state with two listed objects for exercising `removeObject`. -/
def stObjs : SceneState :=
  { world := [Obj3D.mesh (Geometry.generic [vI 0 0 0]), Obj3D.other],
    objects := [⟨10, 0, "a", true⟩, ⟨11, 1, "b", true⟩],
    selectedObject := some 0,
    transformMode := none,
    editMode := some EMode.vertex,
    selectedElements := ⟨[4], [5], [6]⟩,
    draggedVertex := some ⟨[0], vI 0 0 0, vI 0 0 0⟩,
    draggedEdge := none }

/-- `updateSphereVertices` (sceneStore.ts lines 312-341): on a selected
sphere mesh, rebuild the geometry with `vertexCount` width segments and
`vertexCount / 2` height segments (the source passes `vertexCount / 2`,
floored by the constructor) and clear all three selection lists; otherwise
return the state unchanged. -/
def updateSphereVertices (genSph : SphParams → List Vec3) (vertexCount : Nat)
    (s : SceneState) : SceneState :=
  match getMesh s with
  | some (h, Geometry.sphere p _) =>
    let p2 : SphParams :=
      { radius := p.radius, widthSegments := vertexCount,
        heightSegments := vertexCount / 2, phiStart := p.phiStart,
        phiLength := p.phiLength, thetaStart := p.thetaStart,
        thetaLength := p.thetaLength }
    { s with
      world := s.world.set h (Obj3D.mesh (Geometry.sphere p2 (genSph p2))),
      selectedElements := ⟨[], [], []⟩ }
  | _ => s

/-- Sequential in-place writes: fold `List.set` over an index-value list
(the shape shared by the two drag write loops). -/
def setList (ps : List Vec3) (l : List (Nat × Vec3)) : List Vec3 :=
  l.foldl (fun a iv => a.set iv.1 iv.2) ps

/-- The value of the last write targeting index `i`, if any. -/
def lastVal (l : List (Nat × Vec3)) (i : Nat) : Option Vec3 :=
  (l.reverse.find? (fun p => p.1 == i)).map (fun p => p.2)

/-- The index-value writes performed by the `updateEdgeDrag` loop, starting
at `forEach` index `k`. -/
def edgeWrites (pairs : List (Nat × Nat)) (snaps : List Vec3) (offset : Vec3)
    (k : Nat) : List (Nat × Vec3) :=
  match pairs with
  | [] => []
  | (v1, v2) :: rest =>
    (v1, (snaps.getD (2 * k) Vec3.zero).add offset) ::
      (v2, (snaps.getD (2 * k + 1) Vec3.zero).add offset) ::
      edgeWrites rest snaps offset (k + 1)

/-- All writes of a write list that target the same index carry the same
value.  Holds for every session captured by `startEdgeDrag`, whose
snapshots are read from one buffer at one instant. -/
abbrev WritesAgree (l : List (Nat × Vec3)) : Prop :=
  ∀ p ∈ l, ∀ q ∈ l, p.1 = q.1 → p.2 = q.2

/-- Whether the selected target is a mesh with cylinder geometry. -/
def isCylinderTarget (s : SceneState) : Bool :=
  match getMesh s with
  | some (_, Geometry.cylinder _ _) => true
  | _ => false

/-- Whether the selected target is a mesh with sphere geometry. -/
def isSphereTarget (s : SceneState) : Bool :=
  match getMesh s with
  | some (_, Geometry.sphere _ _) => true
  | _ => false

theorem withPositions_positions (g : Geometry) (ps : List Vec3) :
    (g.withPositions ps).positions = ps := by
  cases g <;> rfl

theorem withPositions_withPositions (g : Geometry) (a b : List Vec3) :
    (g.withPositions a).withPositions b = g.withPositions b := by
  cases g <;> rfl

theorem getMesh_inv (s : SceneState) (h : Nat) (g : Geometry)
    (hm : getMesh s = some (h, g)) :
    s.selectedObject = some h ∧ s.world.get? h = some (Obj3D.mesh g) := by
  unfold getMesh at hm
  split at hm
  · cases hm
  · next h2 hsel =>
    split at hm
    · next g2 hw =>
      injection hm with hm2
      injection hm2 with hh hg
      subst hh; subst hg
      exact ⟨hsel, hw⟩
    · next hw => cases hm

theorem world_lt_of_getMesh (s : SceneState) (h : Nat) (g : Geometry)
    (hm : getMesh s = some (h, g)) : h < s.world.length := by
  obtain ⟨-, hw⟩ := getMesh_inv s h g hm
  rw [List.get?_eq_getElem?] at hw
  exact (List.getElem?_eq_some.mp hw).1

/-- C7: with no open drag session, both drag-target applications leave the
state (including every position buffer) unchanged and raise no fault. -/
theorem claim_C7_no_session_noop (s : SceneState) (t : Vec3)
    (hv : s.draggedVertex = none) (he : s.draggedEdge = none) :
    updateVertexDrag t s = s ∧ updateEdgeDrag t s = s := by
  constructor
  · simp [updateVertexDrag, hv]
  · simp [updateEdgeDrag, he]

theorem claim_C7_no_session_noop_witness :
    updateVertexDrag (vI 7 7 7) stSoup = stSoup ∧ updateEdgeDrag (vI 7 7 7) stSoup = stSoup :=
  claim_C7_no_session_noop stSoup (vI 7 7 7) rfl rfl

/-- C6 counterexample: with mesh 0 under a vertex drag of index 0, switching
the selected target to mesh 1 and applying a drag target mutates mesh 1's
position buffer (entry 0 becomes the target), so the orphaned session is not
a no-op on the new target. -/
theorem claim_C6_counterexample :
    (updateVertexDrag (vI 9 9 9) (setSelectedObject (some 1) stTwoMeshes)).world.get? 1 =
      some (Obj3D.mesh (Geometry.generic [vI 9 9 9, vI 2 2 2])) ∧
    (setSelectedObject (some 1) stTwoMeshes).world.get? 1 =
      some (Obj3D.mesh (Geometry.generic [vI 1 1 1, vI 2 2 2])) ∧
    (updateVertexDrag (vI 9 9 9) (setSelectedObject (some 1) stTwoMeshes)).world ≠
      (setSelectedObject (some 1) stTwoMeshes).world := by
  decide

/-- C6 amended: switching the selected object does not discard the open
session; a subsequent drag-target application is a no-op exactly when the
currently selected target is not a mesh (for example when the selection was
cleared); when the new target is another mesh the orphaned session writes
into it (see the counterexample). -/
theorem claim_C6_amended_switch_keeps_session (o : Option Nat) (s : SceneState) (t : Vec3) :
    (setSelectedObject o s).draggedVertex = s.draggedVertex ∧
    (setSelectedObject o s).draggedEdge = s.draggedEdge ∧
    (getMesh s = none → updateVertexDrag t s = s ∧ updateEdgeDrag t s = s) := by
  refine ⟨rfl, rfl, fun hm => ⟨?_, ?_⟩⟩
  · cases hdv : s.draggedVertex <;> simp [updateVertexDrag, hdv, hm]
  · cases hde : s.draggedEdge <;> simp [updateEdgeDrag, hde, hm]

theorem claim_C6_amended_switch_keeps_session_witness :
    updateVertexDrag (vI 2 2 2) stNoMesh = stNoMesh :=
  ((claim_C6_amended_switch_keeps_session (some 0) stNoMesh (vI 2 2 2)).2.2 rfl).1

/-- C5: on the triangle `(2, 10, 11)`, the sort-join `EdgeLines` derivation
(Scene.tsx lines 160-174) emits the canonical edges `(10, 2)` and `(11, 2)`,
because the default JavaScript sort compares the indices as decimal strings;
the claim's `a < b` fails for both.  The min-max derivation (Scene.tsx lines
559-569) emits `(2, 10)` and `(2, 11)` as the claim states. -/
theorem claim_C5_sort_join_not_numeric :
    (10, 2) ∈ uniqueEdgesSortJoin [2, 10, 11] ∧ ¬(10 < 2) ∧
    uniqueEdgesSortJoin [2, 10, 11] = [(10, 2), (10, 11), (11, 2)] ∧
    uniqueEdgesMinMax [2, 10, 11] = [(2, 10), (10, 11), (2, 11)] := by
  decide

theorem setList_cons (ps : List Vec3) (j : Nat) (w : Vec3) (l : List (Nat × Vec3)) :
    setList ps ((j, w) :: l) = setList (ps.set j w) l := rfl

theorem length_setList (l : List (Nat × Vec3)) :
    ∀ ps : List Vec3, (setList ps l).length = ps.length := by
  induction l with
  | nil => intro ps; rfl
  | cons hd tl ih =>
    intro ps
    obtain ⟨j, w⟩ := hd
    rw [setList_cons, ih, List.length_set]

theorem lastVal_cons (j : Nat) (w : Vec3) (l : List (Nat × Vec3)) (i : Nat) :
    lastVal ((j, w) :: l) i = (lastVal l i).or (if j == i then some w else none) := by
  unfold lastVal
  rw [List.reverse_cons, List.find?_append]
  cases h : l.reverse.find? (fun p => p.1 == i) with
  | some b => simp [h]
  | none => cases hji : (j == i) <;> simp [h, List.find?, hji]

theorem get?_setList_none (l : List (Nat × Vec3)) :
    ∀ (ps : List Vec3) (i : Nat), lastVal l i = none →
      (setList ps l).get? i = ps.get? i := by
  induction l with
  | nil => intro ps i _; rfl
  | cons hd tl ih =>
    intro ps i h
    obtain ⟨j, w⟩ := hd
    rw [lastVal_cons] at h
    cases hlv : lastVal tl i with
    | some v => rw [hlv] at h; cases h
    | none =>
      rw [hlv, Option.none_or] at h
      cases hji : (j == i) with
      | true => rw [hji] at h; cases h
      | false =>
        have hne : j ≠ i := by simpa using hji
        rw [setList_cons, ih _ _ hlv, List.get?_eq_getElem?, List.get?_eq_getElem?,
          List.getElem?_set_ne hne]

theorem get?_setList_some (l : List (Nat × Vec3)) :
    ∀ (ps : List Vec3) (i : Nat) (v : Vec3), lastVal l i = some v →
      (setList ps l).get? i = if i < ps.length then some v else none := by
  induction l with
  | nil => intro ps i v h; simp [lastVal] at h
  | cons hd tl ih =>
    intro ps i v h
    obtain ⟨j, w⟩ := hd
    rw [lastVal_cons] at h
    rw [setList_cons]
    cases hlv : lastVal tl i with
    | some v2 =>
      rw [hlv] at h
      have hv : v2 = v := by simpa using h
      subst hv
      rw [ih _ _ _ hlv, List.length_set]
    | none =>
      rw [hlv, Option.none_or] at h
      cases hji : (j == i) with
      | false => rw [hji] at h; cases h
      | true =>
        rw [hji] at h
        have hw2 : w = v := by simpa using h
        subst hw2
        have hj : j = i := by simpa using hji
        subst hj
        rw [get?_setList_none tl _ _ hlv, List.get?_eq_getElem?, List.getElem?_set_self']
        rcases Nat.lt_or_ge j ps.length with hlt | hge
        · rw [List.getElem?_eq_getElem hlt]
          simp [hlt]
        · rw [List.getElem?_eq_none hge]
          simp [Nat.not_lt.mpr hge]

theorem setList_setList (ps : List Vec3) (l : List (Nat × Vec3)) :
    setList (setList ps l) l = setList ps l := by
  apply List.ext
  intro i
  cases h : lastVal l i with
  | none => rw [get?_setList_none l _ _ h, get?_setList_none l _ _ h]
  | some v => rw [get?_setList_some l _ _ _ h, get?_setList_some l _ _ _ h, length_setList]

theorem find?_some_of_mem {α : Type} (p : α → Bool) (l : List α) (a : α)
    (ha : a ∈ l) (hp : p a = true) :
    ∃ b, l.find? p = some b ∧ p b = true ∧ b ∈ l := by
  cases hfind : l.find? p with
  | some b => exact ⟨b, rfl, List.find?_some hfind, List.mem_of_find?_eq_some hfind⟩
  | none =>
    exfalso
    have := List.find?_eq_none.mp hfind a ha
    simp [hp] at this

theorem lastVal_of_mem_agree (l : List (Nat × Vec3)) (i : Nat) (v : Vec3)
    (hmem : (i, v) ∈ l) (hagree : WritesAgree l) : lastVal l i = some v := by
  have hmem2 : (i, v) ∈ l.reverse := List.mem_reverse.mpr hmem
  obtain ⟨b, hfind, hpb, hbmem⟩ :=
    find?_some_of_mem (fun p => p.1 == i) l.reverse (i, v) hmem2 (by simp)
  have hbl : b ∈ l := List.mem_reverse.mp hbmem
  have hb1 : b.1 = i := by simpa using hpb
  have hbv : b.2 = v := hagree b hbl (i, v) hmem (by simp [hb1])
  unfold lastVal
  rw [hfind]
  simp [hbv]

theorem get?_setList_mem_agree (ps : List Vec3) (l : List (Nat × Vec3)) (i : Nat) (v : Vec3)
    (hmem : (i, v) ∈ l) (hagree : WritesAgree l) (hlen : i < ps.length) :
    (setList ps l).get? i = some v := by
  rw [get?_setList_some l ps i v (lastVal_of_mem_agree l i v hmem hagree)]
  simp [hlen]

theorem foldl_set_to_setList (idxs : List Nat) (t : Vec3) (ps : List Vec3) :
    idxs.foldl (fun acc i => acc.set i t) ps = setList ps (idxs.map (fun i => (i, t))) := by
  simp [setList, List.foldl_map]

theorem writesAgree_const (idxs : List Nat) (t : Vec3) :
    WritesAgree (idxs.map (fun i => (i, t))) := by
  intro p hp q hq _
  obtain ⟨a, -, rfl⟩ := List.mem_map.mp hp
  obtain ⟨b, -, rfl⟩ := List.mem_map.mp hq
  rfl

theorem updateVertexDrag_eq (s : SceneState) (t : Vec3) (dv : DraggedVertex)
    (h : Nat) (g : Geometry) (hdv : s.draggedVertex = some dv)
    (hm : getMesh s = some (h, g)) :
    updateVertexDrag t s =
      { s with
        world := s.world.set h (Obj3D.mesh (g.withPositions
          (setList g.positions (dv.indices.map (fun i => (i, t)))))),
        draggedVertex := some { dv with position := t } } := by
  simp only [updateVertexDrag, hdv, hm, foldl_set_to_setList]

theorem get?_set_same_of_get? (w : List Obj3D) (h : Nat) (o o2 : Obj3D)
    (hw : w.get? h = some o) : (w.set h o2).get? h = some o2 := by
  rw [List.get?_eq_getElem?] at hw ⊢
  rw [List.getElem?_set_self', hw]
  rfl

/-- C1: with an open vertex-drag session on a mesh target, applying a target
point writes exactly that point into the buffer at every grouped index. -/
theorem claim_C1_vertex_drag_collapses (s : SceneState) (dv : DraggedVertex)
    (h : Nat) (g : Geometry) (t : Vec3) (i : Nat)
    (hdv : s.draggedVertex = some dv) (hm : getMesh s = some (h, g))
    (hi : i ∈ dv.indices) (hlen : i < g.positions.length) :
    ∃ g2, getMesh (updateVertexDrag t s) = some (h, g2) ∧
      g2.positions.get? i = some t := by
  obtain ⟨hsel, hw⟩ := getMesh_inv s h g hm
  refine ⟨g.withPositions (setList g.positions (dv.indices.map (fun j => (j, t)))), ?_, ?_⟩
  · rw [updateVertexDrag_eq s t dv h g hdv hm]
    unfold getMesh
    simp only [hsel]
    rw [get?_set_same_of_get? s.world h _ _ hw]
  · rw [withPositions_positions]
    exact get?_setList_mem_agree _ _ _ _ (List.mem_map.mpr ⟨i, hi, rfl⟩)
      (writesAgree_const _ _) hlen

theorem claim_C1_vertex_drag_collapses_witness :
    ∃ g2, getMesh (updateVertexDrag (vI 3 4 5) stTwoMeshes) = some (0, g2) ∧
      g2.positions.get? 0 = some (vI 3 4 5) :=
  claim_C1_vertex_drag_collapses stTwoMeshes ⟨[0], vI 0 0 0, vI 0 0 0⟩ 0
    (Geometry.generic [vI 0 0 0]) (vI 3 4 5) 0 rfl rfl (by decide) (by decide)

theorem applyEdgeWrites_eq_setList (pairs : List (Nat × Nat)) (snaps : List Vec3) (off : Vec3) :
    ∀ (k : Nat) (ps : List Vec3),
      applyEdgeWrites pairs snaps off k ps = setList ps (edgeWrites pairs snaps off k) := by
  induction pairs with
  | nil => intro k ps; rfl
  | cons hd rest ih =>
    intro k ps
    obtain ⟨v1, v2⟩ := hd
    simp only [applyEdgeWrites, edgeWrites, setList_cons]
    exact ih (k + 1) _

theorem updateEdgeDrag_eq (s : SceneState) (t : Vec3) (de : DraggedEdge)
    (h : Nat) (g : Geometry) (hde : s.draggedEdge = some de)
    (hm : getMesh s = some (h, g)) :
    updateEdgeDrag t s =
      { s with world := s.world.set h (Obj3D.mesh (g.withPositions
          (setList g.positions (edgeWrites de.indices de.positions
            (t.sub (de.initialPositions.getD 0 Vec3.zero)) 0)))) } := by
  simp only [updateEdgeDrag, hde, hm, applyEdgeWrites_eq_setList]

/-- C3: applying the same edge-drag target twice leaves the state exactly as
after one application; the translation is recomputed from the session's
initial snapshots each time, never accumulated. -/
theorem claim_C3_edge_drag_idempotent (t : Vec3) (s : SceneState) :
    updateEdgeDrag t (updateEdgeDrag t s) = updateEdgeDrag t s := by
  cases hde : s.draggedEdge with
  | none => simp [updateEdgeDrag, hde]
  | some de =>
    cases hm : getMesh s with
    | none => simp [updateEdgeDrag, hde, hm]
    | some hg =>
      obtain ⟨h, g⟩ := hg
      obtain ⟨hsel, hw⟩ := getMesh_inv s h g hm
      have h1 := updateEdgeDrag_eq s t de h g hde hm
      have hde2 : (updateEdgeDrag t s).draggedEdge = some de := by rw [h1]; exact hde
      have hm2 : getMesh (updateEdgeDrag t s) =
          some (h, g.withPositions (setList g.positions
            (edgeWrites de.indices de.positions
              (t.sub (de.initialPositions.getD 0 Vec3.zero)) 0))) := by
        rw [h1]
        unfold getMesh
        simp only [hsel]
        rw [get?_set_same_of_get? s.world h _ _ hw]
      have h2 := updateEdgeDrag_eq (updateEdgeDrag t s) t de h _ hde2 hm2
      rw [h2, h1]
      simp only [withPositions_positions, withPositions_withPositions, setList_setList,
        List.set_set]

theorem mem_edgeWrites (pairs : List (Nat × Nat)) (snaps : List Vec3) (off : Vec3) :
    ∀ (k j v1 v2 : Nat), pairs.get? j = some (v1, v2) →
      (v1, (snaps.getD (2 * (k + j)) Vec3.zero).add off) ∈ edgeWrites pairs snaps off k ∧
      (v2, (snaps.getD (2 * (k + j) + 1) Vec3.zero).add off) ∈ edgeWrites pairs snaps off k := by
  induction pairs with
  | nil => intro k j v1 v2 hj; cases hj
  | cons hd rest ih =>
    intro k j v1 v2 hj
    obtain ⟨a, b⟩ := hd
    cases j with
    | zero =>
      have hab : (a, b) = (v1, v2) := by simpa using hj
      injection hab with ha hb
      subst ha; subst hb
      constructor
      · simp only [Nat.add_zero, edgeWrites]
        exact List.mem_cons_self _ _
      · simp only [Nat.add_zero, edgeWrites]
        exact List.mem_cons_of_mem _ (List.mem_cons_self _ _)
    | succ j2 =>
      have hj2 : rest.get? j2 = some (v1, v2) := by simpa using hj
      have hrec := ih (k + 1) j2 v1 v2 hj2
      have he : k + (j2 + 1) = k + 1 + j2 := by omega
      rw [he]
      constructor
      · simp only [edgeWrites]
        exact List.mem_cons_of_mem _ (List.mem_cons_of_mem _ hrec.1)
      · simp only [edgeWrites]
        exact List.mem_cons_of_mem _ (List.mem_cons_of_mem _ hrec.2)

/-- C4: with an open edge-drag session on a mesh target, applying a target
point sets each participant pair's endpoints to that endpoint's session
snapshot translated by the single vector `target - initialPositions[0]`
(rigid translation of the whole group).  `WritesAgree` states that writes
aimed at one buffer index agree, which holds for sessions captured by
`startEdgeDrag` because every snapshot is read from the same buffer at the
same instant. -/
theorem claim_C4_edge_drag_rigid_translation (s : SceneState) (de : DraggedEdge)
    (h : Nat) (g : Geometry) (t : Vec3) (k v1 v2 : Nat)
    (hde : s.draggedEdge = some de) (hm : getMesh s = some (h, g))
    (hk : de.indices.get? k = some (v1, v2))
    (hl1 : v1 < g.positions.length) (hl2 : v2 < g.positions.length)
    (hagree : WritesAgree (edgeWrites de.indices de.positions
      (t.sub (de.initialPositions.getD 0 Vec3.zero)) 0)) :
    ∃ g2, getMesh (updateEdgeDrag t s) = some (h, g2) ∧
      g2.positions.get? v1 = some ((de.positions.getD (2 * k) Vec3.zero).add
        (t.sub (de.initialPositions.getD 0 Vec3.zero))) ∧
      g2.positions.get? v2 = some ((de.positions.getD (2 * k + 1) Vec3.zero).add
        (t.sub (de.initialPositions.getD 0 Vec3.zero))) := by
  obtain ⟨hsel, hw⟩ := getMesh_inv s h g hm
  have hmem := mem_edgeWrites de.indices de.positions
    (t.sub (de.initialPositions.getD 0 Vec3.zero)) 0 k v1 v2 hk
  rw [Nat.zero_add] at hmem
  refine ⟨g.withPositions (setList g.positions (edgeWrites de.indices de.positions
    (t.sub (de.initialPositions.getD 0 Vec3.zero)) 0)), ?_, ?_, ?_⟩
  · rw [updateEdgeDrag_eq s t de h g hde hm]
    unfold getMesh
    simp only [hsel]
    rw [get?_set_same_of_get? s.world h _ _ hw]
  · rw [withPositions_positions]
    exact get?_setList_mem_agree _ _ _ _ hmem.1 hagree hl1
  · rw [withPositions_positions]
    exact get?_setList_mem_agree _ _ _ _ hmem.2 hagree hl2

theorem claim_C4_edge_drag_rigid_translation_witness :
    ∃ g2, getMesh (updateEdgeDrag (vI 3 0 0) stEdgeSession) = some (0, g2) ∧
      g2.positions.get? 0 = some ((vI 0 0 0).add ((vI 3 0 0).sub (vI 0 0 0))) ∧
      g2.positions.get? 1 = some ((vI 1 0 0).add ((vI 3 0 0).sub (vI 0 0 0))) :=
  claim_C4_edge_drag_rigid_translation stEdgeSession
    ⟨[(0, 1)], [vI 0 0 0, vI 1 0 0], [vI 0 0 0, vI 1 0 0], [0, 0]⟩ 0
    (Geometry.generic [vI 0 0 0, vI 1 0 0, vI 2 0 0]) (vI 3 0 0) 0 0 1
    rfl rfl rfl (by decide) (by decide) (by decide)

theorem distSq_self_num (p : Vec3) : (distSq p p).num = 0 := by
  simp only [distSq, Q.sub, Q.mul, Q.add]
  ring

theorem nearB_self (p : Vec3) : nearB p p = true := by
  simp only [nearB, Q.ltB, decide_eq_true_eq, distSq_self_num, Int.zero_mul]
  have hd := (distSq p p).dpos
  have hn : (eps.mul eps).num = 1 := rfl
  rw [hn, Int.one_mul]
  exact hd

theorem mem_overlappingIndices (buf : List Vec3) (i j : Nat) :
    j ∈ overlappingIndices buf i ↔ j < buf.length ∧
      nearB (buf.getD j Vec3.zero) (buf.getD i Vec3.zero) = true := by
  simp [overlappingIndices, List.mem_filter, List.mem_range]

theorem overlappingIndices_sorted (buf : List Vec3) (i : Nat) :
    List.Sorted (· < ·) (overlappingIndices buf i) := by
  unfold overlappingIndices
  exact (List.pairwise_lt_range _).filter _

/-- C2: the coincidence group captured at vertex-drag start contains the
clicked index, contains exactly the indices whose (squared) distance to the
clicked position is below the squared tolerance, and is ascending in index
(it is a filter of the ascending scan `0, 1, ..., count-1`). -/
theorem claim_C2_vertex_group (s : SceneState) (h : Nat) (g : Geometry)
    (i : Nat) (p : Vec3) (hm : getMesh s = some (h, g))
    (hi : i < g.positions.length) :
    ∃ dv, (startVertexDrag i p s).draggedVertex = some dv ∧
      dv.indices = overlappingIndices g.positions i ∧
      i ∈ dv.indices ∧
      (∀ j, j ∈ dv.indices ↔ j < g.positions.length ∧
        nearB (g.positions.getD j Vec3.zero) (g.positions.getD i Vec3.zero) = true) ∧
      List.Sorted (· < ·) dv.indices := by
  refine ⟨⟨overlappingIndices g.positions i, p, p⟩, ?_, rfl, ?_, ?_, ?_⟩
  · simp [startVertexDrag, hm]
  · exact (mem_overlappingIndices _ _ _).mpr ⟨hi, nearB_self _⟩
  · intro j; exact mem_overlappingIndices _ _ _
  · exact overlappingIndices_sorted _ _

theorem claim_C2_vertex_group_witness :
    ∃ dv, (startVertexDrag 0 (vI 0 0 0) stDup).draggedVertex = some dv ∧
      dv.indices = overlappingIndices
        (Geometry.generic [vI 0 0 0, vI 5 0 0, vI 0 0 0]).positions 0 ∧
      0 ∈ dv.indices ∧
      (∀ j, j ∈ dv.indices ↔
        j < (Geometry.generic [vI 0 0 0, vI 5 0 0, vI 0 0 0]).positions.length ∧
        nearB ((Geometry.generic [vI 0 0 0, vI 5 0 0, vI 0 0 0]).positions.getD j Vec3.zero)
          ((Geometry.generic [vI 0 0 0, vI 5 0 0, vI 0 0 0]).positions.getD 0 Vec3.zero) = true) ∧
      List.Sorted (· < ·) dv.indices :=
  claim_C2_vertex_group stDup 0 (Geometry.generic [vI 0 0 0, vI 5 0 0, vI 0 0 0])
    0 (vI 0 0 0) rfl (by decide)

/-- C8: the resolution-change operations are strict no-ops when the selected
target is not a mesh of the matching parametric kind; on a matching target
they replace the geometry (rebuilt from the carried-over constructor
parameters and the requested count) and reset all three selection lists. -/
theorem claim_C8_resolution_change (genCyl : CylParams → List Vec3)
    (genSph : SphParams → List Vec3) (n : Nat) (s1 s2 s3 s4 : SceneState)
    (h3 : Nat) (p3 : CylParams) (b3 : List Vec3)
    (h4 : Nat) (p4 : SphParams) (b4 : List Vec3)
    (hc1 : isCylinderTarget s1 = false) (hc2 : isSphereTarget s2 = false)
    (hm3 : getMesh s3 = some (h3, Geometry.cylinder p3 b3))
    (hm4 : getMesh s4 = some (h4, Geometry.sphere p4 b4)) :
    updateCylinderVertices genCyl n s1 = s1 ∧
    updateSphereVertices genSph n s2 = s2 ∧
    ((updateCylinderVertices genCyl n s3).selectedElements = ⟨[], [], []⟩ ∧
      (updateCylinderVertices genCyl n s3).world = s3.world.set h3 (Obj3D.mesh
        (Geometry.cylinder { p3 with radialSegments := n }
          (genCyl { p3 with radialSegments := n })))) ∧
    ((updateSphereVertices genSph n s4).selectedElements = ⟨[], [], []⟩ ∧
      (updateSphereVertices genSph n s4).world = s4.world.set h4 (Obj3D.mesh
        (Geometry.sphere
          { radius := p4.radius, widthSegments := n, heightSegments := n / 2,
            phiStart := p4.phiStart, phiLength := p4.phiLength,
            thetaStart := p4.thetaStart, thetaLength := p4.thetaLength }
          (genSph
            { radius := p4.radius, widthSegments := n, heightSegments := n / 2,
              phiStart := p4.phiStart, phiLength := p4.phiLength,
              thetaStart := p4.thetaStart, thetaLength := p4.thetaLength })))) := by
  refine ⟨?_, ?_, ?_, ?_⟩
  · unfold updateCylinderVertices
    cases hm : getMesh s1 with
    | none => rfl
    | some hg =>
      obtain ⟨h, g⟩ := hg
      cases g with
      | cylinder p b =>
        exfalso
        have ht : isCylinderTarget s1 = true := by unfold isCylinderTarget; rw [hm]
        rw [ht] at hc1
        cases hc1
      | sphere p b => rfl
      | generic b => rfl
  · unfold updateSphereVertices
    cases hm : getMesh s2 with
    | none => rfl
    | some hg =>
      obtain ⟨h, g⟩ := hg
      cases g with
      | sphere p b =>
        exfalso
        have ht : isSphereTarget s2 = true := by unfold isSphereTarget; rw [hm]
        rw [ht] at hc2
        cases hc2
      | cylinder p b => rfl
      | generic b => rfl
  · constructor <;> simp [updateCylinderVertices, hm3]
  · constructor <;> simp [updateSphereVertices, hm4]

theorem claim_C8_resolution_change_witness :
    updateCylinderVertices (fun _ => []) 12 stSoup = stSoup ∧
    updateSphereVertices (fun _ => []) 12 stSoup = stSoup ∧
    (updateCylinderVertices (fun _ => []) 12 stCyl).selectedElements = ⟨[], [], []⟩ ∧
    (updateSphereVertices (fun _ => []) 12 stSph).selectedElements = ⟨[], [], []⟩ := by
  have hfull := claim_C8_resolution_change (fun _ => []) (fun _ => []) 12
    stSoup stSoup stCyl stSph 0 cylP [vI 0 0 0] 0 sphP [vI 0 0 0]
    rfl rfl rfl rfl
  exact ⟨hfull.1, hfull.2.1, hfull.2.2.1.1, hfull.2.2.2.1⟩

/-- C9 counterexample: on a six-vertex triangle soup with all positions
distinct, starting an edge drag on the clicked pair `(1, 4)` (an edge of the
derived index topology, but not one of the position-buffer sides
`(0,1), (1,2), (2,0), (3,4), (4,5), (5,3)` the scan visits) opens a session
whose participant list is empty: the clicked edge's own vertex pair is not
among the participants at all, let alone first. -/
theorem claim_C9_counterexample :
    ((startEdgeDrag [1, 4] [vI 1 0 0, vI 4 0 0] 0 stSoup).draggedEdge).map
      DraggedEdge.indices = some [] := by
  decide

/-- C9 amended: the clicked edge's slot index `edgeIndex` is always the
first entry of the session's `edgeIndices`, and the clicked vertex pair is a
participant whenever it is one of the sides the triangle-soup scan actually
visits; for pairs the scan never visits (for example edges of indexed
topology) the pair can be absent. -/
theorem claim_C9_amended_clicked_edge (vi : List Nat) (ps : List Vec3)
    (ei : Nat) (s : SceneState) (h : Nat) (g : Geometry)
    (hm : getMesh s = some (h, g)) :
    ∃ de, (startEdgeDrag vi ps ei s).draggedEdge = some de ∧
      de.edgeIndices.head? = some ei ∧
      (∀ v1 v2, (v1, v2) ∈ scanSides g.positions.length → v1 ∈ vi → v2 ∈ vi →
        (v1, v2) ∈ de.indices) := by
  simp only [startEdgeDrag, hm]
  refine ⟨_, rfl, rfl, ?_⟩
  intro v1 v2 hscan hv1 hv2
  refine List.mem_filter.mpr ⟨hscan, ?_⟩
  simp [matchesSide, hv1, hv2]

theorem claim_C9_amended_clicked_edge_witness :
    ∃ de, (startEdgeDrag [0, 1] [vI 0 0 0, vI 1 0 0] 3 stSoup).draggedEdge = some de ∧
      de.edgeIndices.head? = some 3 ∧
      (∀ v1 v2, (v1, v2) ∈ scanSides (Geometry.generic
          [vI 0 0 0, vI 1 0 0, vI 2 0 0, vI 3 0 0, vI 4 0 0, vI 5 0 0]).positions.length →
        v1 ∈ [0, 1] → v2 ∈ [0, 1] → (v1, v2) ∈ de.indices) :=
  claim_C9_amended_clicked_edge [0, 1] [vI 0 0 0, vI 1 0 0] 3 stSoup 0
    (Geometry.generic [vI 0 0 0, vI 1 0 0, vI 2 0 0, vI 3 0 0, vI 4 0 0, vI 5 0 0]) rfl

theorem length_filter_ne_of_mem (l : List SceneEntry) (id : Nat) :
    (l.map SceneEntry.id).Nodup → ∀ e ∈ l, e.id = id →
      (l.filter (fun o => decide (o.id ≠ id))).length + 1 = l.length := by
  induction l with
  | nil => intro _ e he _; cases he
  | cons a tl ih =>
    intro hnd e he hid
    rw [List.map_cons] at hnd
    obtain ⟨hna, hnd2⟩ := List.nodup_cons.mp hnd
    rw [List.filter_cons]
    rcases List.mem_cons.mp he with rfl | hetl
    · have hfa : decide (e.id ≠ id) = false := by simp [hid]
      rw [hfa]
      have hall : ∀ x ∈ tl, x.id ≠ id := by
        intro x hx hxid
        exact hna ((hid.trans hxid.symm) ▸ List.mem_map_of_mem SceneEntry.id hx)
      rw [if_neg (by simp)]
      rw [List.filter_eq_self.mpr (fun x hx => by simp [hall x hx])]
      rfl
    · cases hfa : decide (a.id ≠ id) with
      | false =>
        exfalso
        have haid : a.id = id := by simpa using hfa
        exact hna ((haid.trans hid.symm) ▸ List.mem_map_of_mem SceneEntry.id hetl)
      | true =>
        rw [if_pos (by simp [hfa])]
        simp only [List.length_cons]
        have := ih hnd2 e hetl hid
        omega

theorem removeObject_selected_none (s : SceneState) (id : Nat)
    (hnd : (s.objects.map SceneEntry.id).Nodup)
    (e : SceneEntry) (he : e ∈ s.objects) (hid : e.id = id)
    (hsel : s.selectedObject = some e.object) :
    (removeObject id s).selectedObject = none := by
  unfold removeObject
  obtain ⟨b, hfind, hpb, hbmem⟩ :=
    find?_some_of_mem (fun o => o.id == id) s.objects e he (by simp [hid])
  have hbid : b.id = id := by simpa using hpb
  have hbe : b = e := List.inj_on_of_nodup_map hnd hbmem he (by rw [hbid, hid])
  simp [hfind, hbe, hsel]

theorem removeObject_selected_keep (s : SceneState) (id : Nat)
    (hnone : ∀ e ∈ s.objects, e.id = id → s.selectedObject ≠ some e.object) :
    (removeObject id s).selectedObject = s.selectedObject := by
  unfold removeObject
  cases hfind : s.objects.find? (fun o => o.id == id) with
  | none => simp [hfind]
  | some b =>
    have hbmem := List.mem_of_find?_eq_some hfind
    have hbid : b.id = id := by simpa using List.find?_some hfind
    have hne := hnone b hbmem hbid
    simp [hfind, hne]

/-- C10: on a state whose listed ids are distinct (they are generated by
`crypto.randomUUID()`), `removeObject id` removes exactly the entry with
that id (the others are kept, in order); the selection becomes null exactly
when the removed entry's object was selected; every other store field —
heap, modes, selection lists and both drag sessions — is untouched, so in
particular an open drag session survives the removal of its object. -/
theorem claim_C10_remove_object (s : SceneState) (id : Nat)
    (hnd : (s.objects.map SceneEntry.id).Nodup) :
    (removeObject id s).objects.Sublist s.objects ∧
    (∀ e, e ∈ (removeObject id s).objects ↔ e ∈ s.objects ∧ e.id ≠ id) ∧
    (∀ e ∈ s.objects, e.id = id →
      (removeObject id s).objects.length + 1 = s.objects.length) ∧
    ((∃ e ∈ s.objects, e.id = id ∧ s.selectedObject = some e.object) →
      (removeObject id s).selectedObject = none) ∧
    ((∀ e ∈ s.objects, e.id = id → s.selectedObject ≠ some e.object) →
      (removeObject id s).selectedObject = s.selectedObject) ∧
    (removeObject id s).world = s.world ∧
    (removeObject id s).transformMode = s.transformMode ∧
    (removeObject id s).editMode = s.editMode ∧
    (removeObject id s).selectedElements = s.selectedElements ∧
    (removeObject id s).draggedVertex = s.draggedVertex ∧
    (removeObject id s).draggedEdge = s.draggedEdge := by
  refine ⟨List.filter_sublist _, ?_, ?_, ?_, ?_, rfl, rfl, rfl, rfl, rfl, rfl⟩
  · intro e
    simp [removeObject, List.mem_filter]
  · intro e he hid
    exact length_filter_ne_of_mem s.objects id hnd e he hid
  · rintro ⟨e, he, hid, hsel⟩
    exact removeObject_selected_none s id hnd e he hid hsel
  · exact removeObject_selected_keep s id

theorem claim_C10_remove_object_witness :
    (removeObject 10 stObjs).objects.Sublist stObjs.objects ∧
    (removeObject 10 stObjs).selectedObject = none ∧
    (removeObject 10 stObjs).draggedVertex = stObjs.draggedVertex := by
  have hfull := claim_C10_remove_object stObjs 10 (by decide)
  exact ⟨hfull.1, hfull.2.2.2.1 ⟨⟨10, 0, "a", true⟩, by decide, rfl, rfl⟩,
    hfull.2.2.2.2.2.2.2.2.2.1⟩

theorem flatMap_pair_getD (buf : List Vec3) (pairs : List (Nat × Nat)) :
    ∀ (j : Nat) (side : Nat × Nat), pairs.get? j = some side →
      (pairs.flatMap (fun s => [buf.getD s.1 Vec3.zero, buf.getD s.2 Vec3.zero])).getD
          (2 * j) Vec3.zero = buf.getD side.1 Vec3.zero ∧
      (pairs.flatMap (fun s => [buf.getD s.1 Vec3.zero, buf.getD s.2 Vec3.zero])).getD
          (2 * j + 1) Vec3.zero = buf.getD side.2 Vec3.zero := by
  induction pairs with
  | nil => intro j side hj; cases hj
  | cons hd rest ih =>
    intro j side hj
    cases j with
    | zero =>
      have hside : hd = side := by simpa using hj
      subst hside
      exact ⟨rfl, rfl⟩
    | succ j2 =>
      have hj2 : rest.get? j2 = some side := by simpa using hj
      have he1 : 2 * (j2 + 1) = 2 * j2 + 1 + 1 := by omega
      have he2 : 2 * (j2 + 1) + 1 = 2 * j2 + 1 + 1 + 1 := by omega
      rw [he2, he1]
      simpa [List.flatMap_cons, List.getD_cons_succ] using ih j2 side hj2

theorem edgeWrites_mem_value (off : Vec3) (buf : List Vec3) :
    ∀ (pairs : List (Nat × Nat)) (snaps : List Vec3) (k : Nat),
      (∀ (j : Nat) (side : Nat × Nat), pairs.get? j = some side →
        snaps.getD (2 * (k + j)) Vec3.zero = buf.getD side.1 Vec3.zero ∧
        snaps.getD (2 * (k + j) + 1) Vec3.zero = buf.getD side.2 Vec3.zero) →
      ∀ p ∈ edgeWrites pairs snaps off k, p.2 = (buf.getD p.1 Vec3.zero).add off := by
  intro pairs
  induction pairs with
  | nil => intro snaps k _ p hp; cases hp
  | cons hd rest ih =>
    intro snaps k hsnap p hp
    obtain ⟨a, b⟩ := hd
    rcases List.mem_cons.mp hp with rfl | hp2
    · have := (hsnap 0 (a, b) rfl).1
      simpa [Nat.add_zero] using congrArg (fun w => w.add off) this
    rcases List.mem_cons.mp hp2 with rfl | hp3
    · have := (hsnap 0 (a, b) rfl).2
      simpa [Nat.add_zero] using congrArg (fun w => w.add off) this
    · refine ih snaps (k + 1) ?_ p hp3
      intro j side hj
      have he : k + 1 + j = k + (j + 1) := by omega
      rw [he]
      exact hsnap (j + 1) side (by simpa using hj)

/-- Every edge-drag session captured by `startEdgeDrag` has agreeing writes:
each snapshot slot `positions[2k]`, `positions[2k+1]` is the buffer value of
the k-th pair's endpoints read at session start, so any two writes aimed at
the same buffer index carry the same translated value.  This discharges the
`WritesAgree` hypothesis of the rigid-translation theorem for every session
the store can actually create. -/
theorem writesAgree_of_snapshots (buf : List Vec3) (pairs : List (Nat × Nat)) (off : Vec3) :
    WritesAgree (edgeWrites pairs
      (pairs.flatMap (fun s => [buf.getD s.1 Vec3.zero, buf.getD s.2 Vec3.zero])) off 0) := by
  intro p hp q hq hpq
  have hsnap : ∀ (j : Nat) (side : Nat × Nat), pairs.get? j = some side →
      (pairs.flatMap (fun s => [buf.getD s.1 Vec3.zero, buf.getD s.2 Vec3.zero])).getD
          (2 * (0 + j)) Vec3.zero = buf.getD side.1 Vec3.zero ∧
      (pairs.flatMap (fun s => [buf.getD s.1 Vec3.zero, buf.getD s.2 Vec3.zero])).getD
          (2 * (0 + j) + 1) Vec3.zero = buf.getD side.2 Vec3.zero := by
    intro j side hj
    simpa using flatMap_pair_getD buf pairs j side hj
  have hp2 := edgeWrites_mem_value off buf pairs _ 0 hsnap p hp
  have hq2 := edgeWrites_mem_value off buf pairs _ 0 hsnap q hq
  rw [hp2, hq2, hpq]

/-- Every edge-drag session captured by `startEdgeDrag` has agreeing writes:
each snapshot slot `positions[2k]`, `positions[2k+1]` is the buffer value of
the k-th pair's endpoints read at session start, so any two writes aimed at
the same buffer index carry the same translated value.  This discharges the
`WritesAgree` hypothesis of the rigid-translation theorem for every session
the store can actually create. -/
theorem startEdgeDrag_session_writesAgree (vi : List Nat) (ps : List Vec3)
    (ei : Nat) (s : SceneState) (h : Nat) (g : Geometry) (t : Vec3)
    (de : DraggedEdge) (hm : getMesh s = some (h, g))
    (hde : (startEdgeDrag vi ps ei s).draggedEdge = some de) :
    WritesAgree (edgeWrites de.indices de.positions
      (t.sub (de.initialPositions.getD 0 Vec3.zero)) 0) := by
  simp only [startEdgeDrag, hm] at hde
  injection hde with hde2
  subst hde2
  exact writesAgree_of_snapshots g.positions _ _
